/-
Verification of the opm-common grid-property / aquifer-connection / action-list
behaviour described in spec.md.

Part 1 models the grid-property core.  The `GridProperty` / `GridProperties` /
`Box` implementation itself is not among the provided sources (only its test
suite `tests/parser/GridPropertyTests.cpp` is), so those definitions are
modelled from the specification text, as indicated in their doc comments.

Part 2 embeds `NumericalAquiferConnections.cpp` and Part 3 embeds
`Actions.cpp`, both of which are provided verbatim.
-/
import Mathlib

namespace OpmCommon

/-- Error kinds of §7 of the specification. -/
inductive GridError where
  | InvalidRange
  | SizeMismatch
  | UnsupportedRecordShape
  | DimensionMismatch
  | OutOfRange
  | UnsupportedKeyword
  | NotFound
deriving DecidableEq, Repr

/-- Grid dimensions, mirrored from the external Grid Topology collaborator. -/
structure Dims where
  nx : Nat
  ny : Nat
  nz : Nat
deriving DecidableEq, Repr

/-- Spec §3: `cartesianSize = nx*ny*nz`. -/
def Dims.cartesianSize (d : Dims) : Nat := d.nx * d.ny * d.nz

/-- The inclusive integer range `[a, b]` as an ordered list (empty when `b < a`). -/
def rangeIncl (a b : Nat) : List Nat := (List.range (b + 1 - a)).map (fun t => a + t)

/-- The row-major global index `globalIndex d i j k = i + j*nx + k*nx*ny`
(i fastest, then j, then k), as used by the tests (`g = i + j*nx + k*nx*ny`). -/
def Dims.globalIndex (d : Dims) (i j k : Nat) : Nat :=
  i + j * d.nx + k * d.nx * d.ny

/-- Modelled from the spec: §4.1 Box Selector, bounded case.  The global index
of every `(i,j,k)` inside the inclusive bounds, in row-major nesting order
(k outer, j middle, i inner). -/
def boxIndices (d : Dims) (i1 i2 j1 j2 k1 k2 : Nat) : List Nat :=
  (rangeIncl k1 k2).flatMap (fun k =>
    (rangeIncl j1 j2).flatMap (fun j =>
      (rangeIncl i1 i2).map (fun i => d.globalIndex i j k)))

/-- Modelled from the spec: §4.1 Box Selector `resolve(grid, bounds?)`.
Absent bounds produce every global index in row-major order; present bounds
are validated (`0 ≤ i1 ≤ i2 < nx` and analogously for j,k), failing with
`InvalidRange`, and otherwise resolved by `boxIndices`. -/
def boxResolve (d : Dims) : Option (Nat × Nat × Nat × Nat × Nat × Nat) →
    Except GridError (List Nat)
  | none => Except.ok (List.range d.cartesianSize)
  | some (i1, i2, j1, j2, k1, k2) =>
      if i1 ≤ i2 ∧ i2 < d.nx ∧ j1 ≤ j2 ∧ j2 < d.ny ∧ k1 ≤ k2 ∧ k2 < d.nz then
        Except.ok (boxIndices d i1 i2 j1 j2 k1 k2)
      else
        Except.error GridError.InvalidRange

/-- Apply `f p x` to the element `x` at each position `p ∈ box` of a list,
starting position numbering at `start`; positions outside `box` are kept.
This is the common "for every index in the box, update the cell" shape of
the §4.2 mutating operations. -/
def mutateFrom (f : Nat → α → α) (box : List Nat) : Nat → List α → List α
  | _, [] => []
  | start, x :: xs =>
      (if start ∈ box then f start x else x) :: mutateFrom f box (start + 1) xs

/-- Apply `f idx` to `l` at every position `idx ∈ box`. -/
def mutate (f : Nat → α → α) (box : List Nat) (l : List α) : List α :=
  mutateFrom f box 0 l

theorem mutateFrom_length (f : Nat → α → α) (box : List Nat) (start : Nat)
    (l : List α) : (mutateFrom f box start l).length = l.length := by
  induction l generalizing start with
  | nil => rfl
  | cons x xs ih => simp [mutateFrom, ih]

theorem mutateFrom_getElem? (f : Nat → α → α) (box : List Nat) (start n : Nat)
    (l : List α) :
    (mutateFrom f box start l)[n]? =
      (l[n]?).map (fun x => if start + n ∈ box then f (start + n) x else x) := by
  induction l generalizing start n with
  | nil => simp [mutateFrom]
  | cons x xs ih =>
      cases n with
      | zero => simp [mutateFrom]
      | succ m =>
          simp only [mutateFrom, List.getElem?_cons_succ, ih (start + 1) m]
          have : start + 1 + m = start + (m + 1) := by omega
          rw [this]

theorem mutate_length (f : Nat → α → α) (box : List Nat) (l : List α) :
    (mutate f box l).length = l.length := mutateFrom_length f box 0 l

theorem mutate_getElem? (f : Nat → α → α) (box : List Nat) (n : Nat)
    (l : List α) :
    (mutate f box l)[n]? =
      (l[n]?).map (fun x => if n ∈ box then f n x else x) := by
  have h := mutateFrom_getElem? f box 0 n l
  simpa [mutate] using h

theorem mutate_getElem?_mem (f : Nat → α → α) (box : List Nat) (n : Nat)
    (l : List α) (h : n ∈ box) :
    (mutate f box l)[n]? = (l[n]?).map (f n) := by
  simp [mutate_getElem?, h]

theorem mutate_getElem?_not_mem (f : Nat → α → α) (box : List Nat) (n : Nat)
    (l : List α) (h : ¬ n ∈ box) :
    (mutate f box l)[n]? = l[n]? := by
  simp [mutate_getElem?, h]

/-- Modelled from the spec: the `(keyword, defaultValue, unit)` descriptor
(`SupportedKeywordInfo` in the tests). -/
structure SupportedKeywordInfo (T : Type) where
  keyword : String
  defaultValue : T
  unitString : String
deriving DecidableEq, Repr

/-- Modelled from the spec: §3 Scalar Grid Property<T>.  The implementation
(`GridProperty.hpp/cpp`) is not among the provided sources; the structure
follows §3: `data` one value per global cell, `defaulted` a parallel bit
array, dimensions mirrored from the grid at construction. -/
structure GridProperty (T : Type) where
  nx : Nat
  ny : Nat
  nz : Nat
  keyword : String
  defaultValue : T
  data : List T
  defaulted : List Bool
deriving DecidableEq, Repr

namespace GridProperty

/-- The property's dimensions as a `Dims` triple. -/
def dims (p : GridProperty T) : Dims := ⟨p.nx, p.ny, p.nz⟩

/-- Modelled from the spec: §4.2 `construct(nx,ny,nz, descriptor)`: allocates
`data` filled with `descriptor.defaultValue`, `defaulted` filled with `true`. -/
def construct (nx ny nz : Nat) (kw : SupportedKeywordInfo T) : GridProperty T :=
  { nx := nx, ny := ny, nz := nz
    keyword := kw.keyword
    defaultValue := kw.defaultValue
    data := List.replicate (nx * ny * nz) kw.defaultValue
    defaulted := List.replicate (nx * ny * nz) true }

/-- Output accessor `wasDefaulted` (spec §6): the defaulted bitmap. -/
def wasDefaulted (p : GridProperty T) : List Bool := p.defaulted

/-- Output accessor `getData`. -/
def getData (p : GridProperty T) : List T := p.data

/-- Modelled from the spec: §4.2 `setScalar(value, box)`: for every index in
the box, `data[idx] = value`, `defaulted[idx] = false`. -/
def setScalar (p : GridProperty T) (v : T) (box : List Nat) : GridProperty T :=
  { p with
    data := mutate (fun _ _ => v) box p.data
    defaulted := mutate (fun _ _ => false) box p.defaulted }

/-- Modelled from the spec: §4.2 `add(delta, box)`: `data[idx] += delta` for
every index in the box; does not change `defaulted`. -/
def add [Add T] (p : GridProperty T) (delta : T) (box : List Nat) :
    GridProperty T :=
  { p with data := mutate (fun _ x => x + delta) box p.data }

/-- Modelled from the spec: §4.2 `scale(factor, box)`: `data[idx] *= factor`
for every index in the box; does not change `defaulted`. -/
def scale [Mul T] (p : GridProperty T) (factor : T) (box : List Nat) :
    GridProperty T :=
  { p with data := mutate (fun _ x => x * factor) box p.data }

/-- Modelled from the spec: §4.2 `copyFrom(other, box)`:
`data[idx] = other.data[idx]`, `defaulted[idx] = other.defaulted[idx]` for
every index in the box; requires matching dimensions. -/
def copyFrom (p other : GridProperty T) (box : List Nat) : GridProperty T :=
  { p with
    data := mutate (fun idx x => (other.data[idx]?).getD x) box p.data
    defaulted :=
      mutate (fun idx x => (other.defaulted[idx]?).getD x) box p.defaulted }

/-- Modelled from the spec: §4.2 `multiplyWith(other, box?)`: element-wise
`data[idx] *= other.data[idx]`; fails with `DimensionMismatch` unless `other`
has identical `(nx,ny,nz)`.  An absent box means the whole grid. -/
def multiplyWith [Mul T] (p other : GridProperty T) (bx : Option (List Nat)) :
    Except GridError (GridProperty T) :=
  if p.dims = other.dims then
    Except.ok { p with
      data := mutate (fun idx x => x * (other.data[idx]?).getD x)
        (bx.getD (List.range p.dims.cartesianSize)) p.data }
  else
    Except.error GridError.DimensionMismatch

/-- Modelled from the spec: §4.2 `minValue(bound, box)` enforces the lower
bound `data[idx] = max data[idx] bound`; semantically a "set", it produces a
non-defaulted result for every index in the box (the policy pinned by the
`EndScale_Horizontal` test: a cell touched only by MINVALUE is reported as
not defaulted). -/
def minValue [LinearOrder T] (p : GridProperty T) (bound : T)
    (box : List Nat) : GridProperty T :=
  { p with
    data := mutate (fun _ x => max x bound) box p.data
    defaulted := mutate (fun _ _ => false) box p.defaulted }

/-- Modelled from the spec: §4.2 `maxValue(bound, box)` enforces the upper
bound `data[idx] = min data[idx] bound`; like `minValue` it produces a
non-defaulted result for every index in the box. -/
def maxValue [LinearOrder T] (p : GridProperty T) (bound : T)
    (box : List Nat) : GridProperty T :=
  { p with
    data := mutate (fun _ x => min x bound) box p.data
    defaulted := mutate (fun _ _ => false) box p.defaulted }

end GridProperty

/-- Every index resolved from bounded box bounds is a valid global index. -/
theorem boxIndices_lt (d : Dims) (i1 i2 j1 j2 k1 k2 : Nat)
    (hi : i2 < d.nx) (hj : j2 < d.ny) (hk : k2 < d.nz) :
    ∀ idx ∈ boxIndices d i1 i2 j1 j2 k1 k2, idx < d.cartesianSize := by
  intro idx hidx
  simp only [boxIndices, List.mem_flatMap, List.mem_map, rangeIncl] at hidx
  obtain ⟨k, hkmem, j, hjmem, i, himem, rfl⟩ := hidx
  simp only [List.mem_map, List.mem_range] at hkmem hjmem himem
  obtain ⟨tk, htk, rfl⟩ := hkmem
  obtain ⟨tj, htj, rfl⟩ := hjmem
  obtain ⟨ti, hti, rfl⟩ := himem
  have hi' : i1 + ti < d.nx := by omega
  have hj' : j1 + tj < d.ny := by omega
  have hk' : k1 + tk < d.nz := by omega
  unfold Dims.globalIndex Dims.cartesianSize
  calc i1 + ti + (j1 + tj) * d.nx + (k1 + tk) * d.nx * d.ny
      < (1 + (j1 + tj)) * d.nx + (k1 + tk) * d.nx * d.ny := by
        have hq : (1 + (j1 + tj)) * d.nx = (j1 + tj) * d.nx + d.nx := by ring
        omega
    _ ≤ d.ny * d.nx + (k1 + tk) * (d.nx * d.ny) := by
        have h1 : 1 + (j1 + tj) ≤ d.ny := by omega
        have h2 := Nat.mul_le_mul_right d.nx h1
        have h3 : (k1 + tk) * d.nx * d.ny = (k1 + tk) * (d.nx * d.ny) := by ring
        omega
    _ ≤ (1 + (k1 + tk)) * (d.nx * d.ny) := by
        have : (1 + (k1 + tk)) * (d.nx * d.ny)
            = d.nx * d.ny + (k1 + tk) * (d.nx * d.ny) := by ring
        have h4 : d.ny * d.nx = d.nx * d.ny := by ring
        omega
    _ ≤ d.nz * (d.nx * d.ny) := by
        exact Nat.mul_le_mul_right _ (by omega)
    _ = d.nx * d.ny * d.nz := by ring

/-- Every index a resolved box yields is a valid global index (spec §3). -/
theorem boxResolve_lt (d : Dims) (bounds : Option (Nat × Nat × Nat × Nat × Nat × Nat))
    (box : List Nat) (h : boxResolve d bounds = Except.ok box) :
    ∀ idx ∈ box, idx < d.cartesianSize := by
  cases bounds with
  | none =>
      simp only [boxResolve, Except.ok.injEq] at h
      subst h
      intro idx hidx
      exact List.mem_range.mp hidx
  | some b =>
      obtain ⟨i1, i2, j1, j2, k1, k2⟩ := b
      simp only [boxResolve] at h
      split at h
      · next hcond =>
          obtain ⟨_, hi, _, hj, _, hk⟩ := hcond
          cases h
          exact boxIndices_lt d i1 i2 j1 j2 k1 k2 hi hj hk
      · cases h

/-- Modelled from the spec: §3/§4.3 Property Registry (`GridProperties`).
The implementation is not among the provided sources.  `schema` is fixed at
construction; `properties` is populated lazily and every key in it comes from
the schema.  Operations that may instantiate return the updated registry next
to their result (the C++ mutates in place). -/
structure GridProperties (T : Type) where
  gridDims : Dims
  supported : List (SupportedKeywordInfo T)
  properties : List (String × GridProperty T)

namespace GridProperties

/-- Modelled from the spec: registry construction — schema fixed, no
property instantiated. -/
def construct (d : Dims) (schema : List (SupportedKeywordInfo T)) :
    GridProperties T :=
  { gridDims := d, supported := schema, properties := [] }

/-- Modelled from the spec: §4.3 `supportsKeyword(name)`: schema membership
check, no instantiation (it does not touch `properties` at all). -/
def supportsKeyword (g : GridProperties T) (name : String) : Bool :=
  (g.supported.find? (fun kw => kw.keyword = name)).isSome

/-- Modelled from the spec: §4.3 `hasKeyword(name)`: true only if the
property has been instantiated. -/
def hasKeyword (g : GridProperties T) (name : String) : Bool :=
  (g.properties.lookup name).isSome

/-- Modelled from the spec: §4.3 `addKeyword(name)`: `UnsupportedKeyword` if
outside the schema (registry unchanged); `false` without change when already
instantiated; otherwise instantiates with the schema default and returns
`true`. -/
def addKeyword (g : GridProperties T) (name : String) :
    Except GridError Bool × GridProperties T :=
  match g.supported.find? (fun kw => kw.keyword = name) with
  | none => (Except.error GridError.UnsupportedKeyword, g)
  | some kw =>
      if g.hasKeyword name then
        (Except.ok false, g)
      else
        (Except.ok true,
          { g with properties := g.properties ++
              [(name, GridProperty.construct g.gridDims.nx g.gridDims.ny
                g.gridDims.nz kw)] })

/-- Modelled from the spec: §4.3 `getKeyword(name)`: returns the property,
instantiating it with the schema default when absent; `UnsupportedKeyword`
when the name is outside the schema (registry unchanged). -/
def getKeyword (g : GridProperties T) (name : String) :
    Except GridError (GridProperty T) × GridProperties T :=
  match g.supported.find? (fun kw => kw.keyword = name) with
  | none => (Except.error GridError.UnsupportedKeyword, g)
  | some kw =>
      match g.properties.lookup name with
      | some p => (Except.ok p, g)
      | none =>
          let p := GridProperty.construct g.gridDims.nx g.gridDims.ny
            g.gridDims.nz kw
          (Except.ok p, { g with properties := g.properties ++ [(name, p)] })

/-- Modelled from the spec: §4.3 `assertKeyword(name)`: same
lazy-instantiation effect as `getKeyword` but returns nothing. -/
def assertKeyword (g : GridProperties T) (name : String) : GridProperties T :=
  (g.getKeyword name).2

end GridProperties

/-
Part 2: embedding of
`src/opm/parser/eclipse/EclipseState/Aquifer/NumericalAquifer/NumericalAquiferConnections.cpp`.
`EclipseGrid`, `AquiferHelpers` and the deck/record machinery are external
collaborators; their behaviour enters as abstract boolean functions and as
already-parsed record field values.
-/

/-- The connection face direction (`FaceDir::DirEnum`). -/
inductive FaceDir where
  | XMinus | XPlus | YMinus | YPlus | ZMinus | ZPlus
deriving DecidableEq, Repr

/-- The external `EclipseGrid` collaborator: dimensions, the activity
predicate `cellActive(i,j,k)`, and the external helper
`AquiferHelpers::neighborCellInsideReservoirAndActive` (whether the cell's
neighbour across the given face is an active in-reservoir cell), both
abstract. -/
structure EclipseGrid where
  nx : Nat
  ny : Nat
  nz : Nat
  cellActive : Nat → Nat → Nat → Bool
  neighborCellInsideReservoirAndActive : Nat → Nat → Nat → FaceDir → Bool

/-- Row-major `EclipseGrid::getGlobalIndex(i,j,k)`. -/
def EclipseGrid.getGlobalIndex (g : EclipseGrid) (i j k : Nat) : Nat :=
  i + j * g.nx + k * g.nx * g.ny

/-- An already-parsed AQUCON record: the item values
`generateConnections` and the `NumAquiferCon` constructor read from it.
`i1..k2` hold the deck's 1-based inclusive bounds (the deck schema requires
them positive); the string items `CONNECT_FACE` / `ALLOW_INTERNAL_CELLS` are
already converted.  The source's `double` items are carried as rationals. -/
structure AquconRecord where
  id : Nat
  i1 : Nat
  i2 : Nat
  j1 : Nat
  j2 : Nat
  k1 : Nat
  k2 : Nat
  connect_face : FaceDir
  trans_mult : Rat
  trans_option : Int
  allow_internal_cells : Bool
  ve_frac_relperm : Rat
  ve_frac_cappress : Rat
deriving DecidableEq, Repr

/-- A numerical aquifer connection; fields as in the `NumAquiferCon`
constructor. -/
structure NumAquiferCon where
  aquifer_id : Nat
  I : Nat
  J : Nat
  K : Nat
  global_index : Nat
  face_dir : FaceDir
  trans_multipler : Rat
  trans_option : Int
  connect_active_cell : Bool
  ve_frac_relperm : Rat
  ve_frac_cappress : Rat
deriving DecidableEq, Repr

namespace NumAquiferCon

/-- The `NumAquiferCon(i, j, k, global_index, allow_connection_active,
record)` constructor. -/
def make (i j k global_index_in : Nat) (allow_connection_active : Bool)
    (record : AquconRecord) : NumAquiferCon :=
  { aquifer_id := record.id
    I := i
    J := j
    K := k
    global_index := global_index_in
    face_dir := record.connect_face
    trans_multipler := record.trans_mult
    trans_option := record.trans_option
    connect_active_cell := allow_connection_active
    ve_frac_relperm := record.ve_frac_relperm
    ve_frac_cappress := record.ve_frac_cappress }

/-- Source `NumAquiferCon::generateConnections(grid, record)`: triple loop
`k = k1..k2`, `j = j1..j2`, `i = i1..i2` over the record's (1-based,
decremented on read) bounds; inactive cells are skipped; a connection is
emitted when internal cells are allowed or the neighbour across the
connection face is not an active in-reservoir cell. -/
def generateConnections (grid : EclipseGrid) (record : AquconRecord) :
    List NumAquiferCon :=
  let i1 := record.i1 - 1
  let j1 := record.j1 - 1
  let k1 := record.k1 - 1
  let i2 := record.i2 - 1
  let j2 := record.j2 - 1
  let k2 := record.k2 - 1
  let allow_internal_cells := record.allow_internal_cells
  let face_dir := record.connect_face
  (rangeIncl k1 k2).flatMap (fun k =>
    (rangeIncl j1 j2).flatMap (fun j =>
      (rangeIncl i1 i2).filterMap (fun i =>
        if ! grid.cellActive i j k then
          none
        else if allow_internal_cells ||
            ! grid.neighborCellInsideReservoirAndActive i j k face_dir then
          some (make i j k (grid.getGlobalIndex i j k)
            allow_internal_cells record)
        else
          none)))

end NumAquiferCon

/-- The `(i,j,k)` triples of an inclusive box in row-major nesting order
(k outer, j middle, i inner). -/
def rowMajorBoxCells (i1 i2 j1 j2 k1 k2 : Nat) : List (Nat × Nat × Nat) :=
  (rangeIncl k1 k2).flatMap (fun k =>
    (rangeIncl j1 j2).flatMap (fun j =>
      (rangeIncl i1 i2).map (fun i => (i, j, k))))

/-- External `KeywordLocation`: the source location a keyword came from. -/
structure KeywordLocation where
  filename : String
  lineno : Nat
deriving DecidableEq, Repr

/-- An input error (`OpmInputError`) with the offending keyword's source
location. -/
structure OpmInputError where
  message : String
  location : KeywordLocation
deriving DecidableEq, Repr

/-- The `connections_` member: `std::map<size_t, std::map<size_t,
NumAquiferCon>>` keyed by aquifer id then global index, modelled as nested
association lists (insertion order; key uniqueness is what the claims are
about). -/
abbrev ConnMap : Type := List (Nat × List (Nat × NumAquiferCon))

/-- The duplicate-declaration diagnostic built in the constructor
(1-based cell coordinates and the aquifer id). -/
def dupMessage (con : NumAquiferCon) : String :=
  "Numerical aquifer cell at (" ++ toString (con.I + 1) ++ ", " ++
    toString (con.J + 1) ++ ", " ++ toString (con.K + 1) ++
    ") is declared more than once for numerical aquifer " ++
    toString con.aquifer_id

/-- One step of the constructor loop: `connections_[aqu_id]` (creating the
inner map when absent), then insert at `global_index` if not already present;
`none` signals the duplicate that the constructor turns into an error. -/
def insertCon : ConnMap → NumAquiferCon → Option ConnMap
  | [], con => some [(con.aquifer_id, [(con.global_index, con)])]
  | (id, cons) :: rest, con =>
      if id = con.aquifer_id then
        if (cons.lookup con.global_index).isSome then
          none
        else
          some ((id, cons ++ [(con.global_index, con)]) :: rest)
      else
        (insertCon rest con).map (fun r => (id, cons) :: r)

/-- The `NumericalAquiferConnections(deck, grid)` constructor over the
already-extracted AQUCON keywords (each with its source location and its
records; deck lookup itself is external): for every keyword, record and
generated connection, insert into `connections_`, failing with an
`OpmInputError` carrying the keyword's location when the same global cell is
declared twice for one aquifer. -/
def NumericalAquiferConnections.build (grid : EclipseGrid)
    (keywords : List (KeywordLocation × List AquconRecord)) :
    Except OpmInputError ConnMap :=
  keywords.foldlM (fun m kw =>
    kw.2.foldlM (fun m record =>
      (NumAquiferCon.generateConnections grid record).foldlM (fun m con =>
        match insertCon m con with
        | some m2 => Except.ok m2
        | none => Except.error ⟨dupMessage con, kw.1⟩) m) m) ([] : ConnMap)

/-
Part 3: embedding of
`src/opm/parser/eclipse/EclipseState/Schedule/Action/Actions.cpp`.
`ActionX` is an external collaborator of which only `name()` and
`ready(sim_time)` are used; both enter abstractly.  `time_t` is carried as
`Int`.
-/

/-- The external `ActionX` collaborator: only its `name()` and
`ready(sim_time)` are consumed by `Actions`. -/
structure ActionX where
  name : String
  ready : Int → Bool

/-- The loop body of `Actions::add`: replace the first stored action with a
matching name in place, otherwise `push_back`. -/
def addByName (action : ActionX) : List ActionX → List ActionX
  | [] => [action]
  | x :: xs =>
      if x.name = action.name then action :: xs else x :: addByName action xs

/-- The `Actions` container: a vector of `ActionX`. -/
structure Actions where
  actions : List ActionX

namespace Actions

/-- Source `Actions::size`. -/
def size (a : Actions) : Nat := a.actions.length

/-- Source `Actions::add(action)`: `std::find_if` by name; replace in place when
found, `push_back` otherwise. -/
def add (a : Actions) (action : ActionX) : Actions :=
  ⟨addByName action a.actions⟩

/-- Source `Actions::get(name)`: `std::find_if` by name; the `throw` on a missing
name is modelled as `none`. -/
def get (a : Actions) (name : String) : Option ActionX :=
  a.actions.find? (fun act => act.name = name)

/-- The loop of `Actions::ready(sim_time)`: return `true` at the first
stored action whose `ready(sim_time)` holds. -/
def readyList (t : Int) : List ActionX → Bool
  | [] => false
  | x :: xs => if x.ready t then true else readyList t xs

/-- Source `Actions::ready(sim_time)`. -/
def ready (a : Actions) (t : Int) : Bool := readyList t a.actions

/-- The loop of `Actions::pending(sim_time)`: collect, in storage order,
every stored action whose `ready(sim_time)` holds (the source collects
pointers; the model collects the actions themselves). -/
def pendingList (t : Int) : List ActionX → List ActionX
  | [] => []
  | x :: xs => if x.ready t then x :: pendingList t xs else pendingList t xs

/-- Source `Actions::pending(sim_time)`. -/
def pending (a : Actions) (t : Int) : List ActionX := pendingList t a.actions

end Actions

/-
Claim theorems.
-/

/-- C6: For all (nx,ny,nz,defaultValue), a freshly constructed Scalar Grid
Property has data of length nx*ny*nz with data[g] == defaultValue and
defaulted[g] == true for every global index g. -/
theorem claim_C6 (T : Type) (nx ny nz : Nat) (kw : SupportedKeywordInfo T) :
    (GridProperty.construct nx ny nz kw).data.length = nx * ny * nz ∧
    ∀ g, g < nx * ny * nz →
      (GridProperty.construct nx ny nz kw).getData[g]? = some kw.defaultValue ∧
      (GridProperty.construct nx ny nz kw).wasDefaulted[g]? = some true := by
  refine ⟨by simp [GridProperty.construct], fun g hg => ⟨?_, ?_⟩⟩ <;>
    simp [GridProperty.construct, GridProperty.getData, GridProperty.wasDefaulted,
      List.getElem?_replicate, hg]

/-- Witness for C6 at the `Empty` test's instance (5×5×4, default 77). -/
theorem claim_C6_witness :
    (GridProperty.construct 5 5 4 ⟨"SATNUM", (77 : Int), "1"⟩).data.length = 5 * 5 * 4 ∧
    (GridProperty.construct 5 5 4 ⟨"SATNUM", (77 : Int), "1"⟩).getData[0]? = some 77 ∧
    (GridProperty.construct 5 5 4 ⟨"SATNUM", (77 : Int), "1"⟩).wasDefaulted[0]? = some true := by
  have h := claim_C6 Int 5 5 4 ⟨"SATNUM", 77, "1"⟩
  exact ⟨h.1, h.2 0 (by norm_num)⟩

/-- C1: minValue/maxValue clamp the values in the box and clear the defaulted
flag there (in particular at every index whose value is clamped), so a cell
touched only by MINVALUE/MAXVALUE is reported as not defaulted by
wasDefaulted(), while cells outside the box keep their defaulted flag. -/
theorem claim_C1 (T : Type) [LinearOrder T] (p : GridProperty T)
    (bounds : Option (Nat × Nat × Nat × Nat × Nat × Nat)) (box : List Nat)
    (bound : T)
    (hbox : boxResolve p.dims bounds = Except.ok box)
    (hdlen : p.defaulted.length = p.dims.cartesianSize) :
    (∀ idx ∈ box,
      (p.minValue bound box).getData[idx]? =
        (p.getData[idx]?).map (fun x => max x bound) ∧
      (p.minValue bound box).wasDefaulted[idx]? = some false ∧
      (p.maxValue bound box).getData[idx]? =
        (p.getData[idx]?).map (fun x => min x bound) ∧
      (p.maxValue bound box).wasDefaulted[idx]? = some false) ∧
    (∀ idx, idx ∉ box →
      (p.minValue bound box).getData[idx]? = p.getData[idx]? ∧
      (p.minValue bound box).wasDefaulted[idx]? = p.wasDefaulted[idx]? ∧
      (p.maxValue bound box).getData[idx]? = p.getData[idx]? ∧
      (p.maxValue bound box).wasDefaulted[idx]? = p.wasDefaulted[idx]?) := by
  constructor
  · intro idx hidx
    have hlt : idx < p.defaulted.length := by
      rw [hdlen]; exact boxResolve_lt p.dims bounds box hbox idx hidx
    have hb := List.getElem?_eq_getElem hlt
    refine ⟨?_, ?_, ?_, ?_⟩ <;>
      simp [GridProperty.minValue, GridProperty.maxValue, GridProperty.getData,
        GridProperty.wasDefaulted, mutate_getElem?_mem _ _ _ _ hidx, hb]
  · intro idx hidx
    refine ⟨?_, ?_, ?_, ?_⟩ <;>
      simp [GridProperty.minValue, GridProperty.maxValue, GridProperty.getData,
        GridProperty.wasDefaulted, mutate_getElem?_not_mem _ _ _ _ hidx]

/-- Witness for C1 on a 2×1×1 grid, default 5, bound 7, box the single cell
0: inside the box the value is clamped and reported non-defaulted; cell 1 is
untouched. -/
theorem claim_C1_witness :
    (((GridProperty.construct 2 1 1 ⟨"P", (5 : Int), "1"⟩).minValue 7 [0]).getData[0]? =
      ((GridProperty.construct 2 1 1 ⟨"P", (5 : Int), "1"⟩).getData[0]?).map
        (fun x => max x 7)) ∧
    ((GridProperty.construct 2 1 1 ⟨"P", (5 : Int), "1"⟩).minValue 7 [0]).wasDefaulted[0]? =
      some false ∧
    ((GridProperty.construct 2 1 1 ⟨"P", (5 : Int), "1"⟩).minValue 7 [0]).wasDefaulted[1]? =
      (GridProperty.construct 2 1 1 ⟨"P", (5 : Int), "1"⟩).wasDefaulted[1]? := by
  have h := claim_C1 Int (GridProperty.construct 2 1 1 ⟨"P", (5 : Int), "1"⟩)
    (some (0, 0, 0, 0, 0, 0)) [0] 7 rfl (by decide)
  exact ⟨(h.1 0 (by decide)).1, (h.1 0 (by decide)).2.1, (h.2 1 (by decide)).2.1⟩

/-- C2: add(delta, box) adds delta inside the box, leaves data outside the
box unchanged, and leaves the entire defaulted bitmap unchanged; scale and
multiplyWith also preserve the defaulted bitmap. -/
theorem claim_C2 (T : Type) [Add T] [Mul T] (p other : GridProperty T)
    (box : List Nat) (delta factor : T) (bx : Option (List Nat)) :
    (∀ idx ∈ box,
      (p.add delta box).getData[idx]? =
        (p.getData[idx]?).map (fun x => x + delta)) ∧
    (∀ idx, idx ∉ box → (p.add delta box).getData[idx]? = p.getData[idx]?) ∧
    (p.add delta box).wasDefaulted = p.wasDefaulted ∧
    (p.scale factor box).wasDefaulted = p.wasDefaulted ∧
    (∀ q, p.multiplyWith other bx = Except.ok q →
      q.wasDefaulted = p.wasDefaulted) := by
  refine ⟨fun idx hidx => ?_, fun idx hidx => ?_, rfl, rfl, fun q hq => ?_⟩
  · simp [GridProperty.add, GridProperty.getData, mutate_getElem?_mem _ _ _ _ hidx]
  · simp [GridProperty.add, GridProperty.getData, mutate_getElem?_not_mem _ _ _ _ hidx]
  · unfold GridProperty.multiplyWith at hq
    split at hq
    · cases hq; rfl
    · cases hq

/-- Witness for C2 on a 2×1×1 grid, default 9, delta 2, box the single cell
0: the boxed cell gains 2, the other keeps its value, and the defaulted
bitmap survives ADD, SCALE and a whole-grid multiplyWith. -/
theorem claim_C2_witness :
    ((GridProperty.construct 2 1 1 ⟨"P", (9 : Int), "1"⟩).add 2 [0]).getData[0]? =
      (((GridProperty.construct 2 1 1 ⟨"P", (9 : Int), "1"⟩).getData[0]?).map
        (fun x => x + 2)) ∧
    ((GridProperty.construct 2 1 1 ⟨"P", (9 : Int), "1"⟩).add 2 [0]).getData[1]? =
      (GridProperty.construct 2 1 1 ⟨"P", (9 : Int), "1"⟩).getData[1]? ∧
    ((GridProperty.construct 2 1 1 ⟨"P", (9 : Int), "1"⟩).add 2 [0]).wasDefaulted =
      (GridProperty.construct 2 1 1 ⟨"P", (9 : Int), "1"⟩).wasDefaulted := by
  have h := claim_C2 Int (GridProperty.construct 2 1 1 ⟨"P", (9 : Int), "1"⟩)
    (GridProperty.construct 2 1 1 ⟨"P", (9 : Int), "1"⟩) [0] 2 2 none
  exact ⟨h.1 0 (by decide), h.2.1 1 (by decide), h.2.2.1⟩

/-- C5: multiplyWith fails with DimensionMismatch exactly when the two
properties have different (nx,ny,nz); with matching dimensions it succeeds
and multiplies element-wise over all cells. -/
theorem claim_C5 (T : Type) [Mul T] (p other : GridProperty T)
    (hlen : p.data.length = p.dims.cartesianSize) :
    (p.multiplyWith other none = Except.error GridError.DimensionMismatch ↔
      p.dims ≠ other.dims) ∧
    (p.dims = other.dims →
      ∃ q, p.multiplyWith other none = Except.ok q ∧
        ∀ (idx : Nat) (a b : T), p.getData[idx]? = some a →
          other.getData[idx]? = some b →
          q.getData[idx]? = some (a * b)) := by
  constructor
  · unfold GridProperty.multiplyWith
    split
    · next hdim => simp [hdim]
    · next hdim => simp [hdim]
  · intro hdim
    refine ⟨{ p with data := mutate (fun idx x => x * (other.data[idx]?).getD x) (List.range p.dims.cartesianSize) p.data }, ?_, ?_⟩
    · simp [GridProperty.multiplyWith, hdim, Option.getD]
    · intro idx a b ha hb
      simp only [GridProperty.getData] at ha hb ⊢
      have hidx : idx ∈ List.range p.dims.cartesianSize := by
        rw [List.mem_range, ← hlen]
        rcases List.getElem?_eq_some.mp ha with ⟨hlt, _⟩
        exact hlt
      simp [mutate_getElem?_mem _ _ _ _ hidx, ha, hb]

/-- Witness for C5 at the `multiply` test's instances: 5×5×4 against 5×5×5
(differing nz) fails with DimensionMismatch; 5×5×4 against 5×5×4, both
constant 10, multiplies to 100. -/
theorem claim_C5_witness :
    (GridProperty.construct 5 5 4 ⟨"P", (10 : Int), "1"⟩).multiplyWith
      (GridProperty.construct 5 5 5 ⟨"P", (10 : Int), "1"⟩) none =
      Except.error GridError.DimensionMismatch ∧
    ∃ q, (GridProperty.construct 5 5 4 ⟨"P", (10 : Int), "1"⟩).multiplyWith
        (GridProperty.construct 5 5 4 ⟨"P", (10 : Int), "1"⟩) none =
        Except.ok q ∧ q.getData[0]? = some 100 := by
  have h1 := claim_C5 Int (GridProperty.construct 5 5 4 ⟨"P", (10 : Int), "1"⟩)
    (GridProperty.construct 5 5 5 ⟨"P", (10 : Int), "1"⟩) (by decide)
  have h2 := claim_C5 Int (GridProperty.construct 5 5 4 ⟨"P", (10 : Int), "1"⟩)
    (GridProperty.construct 5 5 4 ⟨"P", (10 : Int), "1"⟩) (by decide)
  obtain ⟨q, hq, hpt⟩ := h2.2 (by decide)
  have hv := hpt 0 10 10 (by decide) (by decide)
  norm_num at hv
  exact ⟨h1.1.mpr (by decide), q, hq, hv⟩

/-- The 4×4×2 grid of the SCALE/ADD tests. -/
def c4_dims : Dims := ⟨4, 4, 2⟩

/-- The full-grid box of the SCALE/ADD tests. -/
def c4_global : List Nat := List.range c4_dims.cartesianSize

/-- The layer-0 box `(0..3, 0..3, 0..0)` of the SCALE/ADD tests. -/
def c4_layer0 : List Nat := boxIndices c4_dims 0 3 0 3 0 0

/-- Property `prop1`: constant 1. -/
def c4_prop1 : GridProperty Int := GridProperty.construct 4 4 2 ⟨"P1", 1, "1"⟩

/-- Property `prop2`: constant 9. -/
def c4_prop2 : GridProperty Int := GridProperty.construct 4 4 2 ⟨"P2", 9, "1"⟩

/-- The SCALE test's sequence: copyFrom layer0, scale 2 global, scale 2
layer0. -/
def c4_scaled : GridProperty Int :=
  (((c4_prop2.copyFrom c4_prop1 c4_layer0).scale 2 c4_global).scale 2 c4_layer0)

/-- The ADD test's sequence: copyFrom layer0, add 2 global, add 2 layer0. -/
def c4_added : GridProperty Int :=
  (((c4_prop2.copyFrom c4_prop1 c4_layer0).add 2 c4_global).add 2 c4_layer0)

/-- C4: on the 4×4×2 grid, the copy/scale sequence ends with every layer-0
cell (global indices 0..15) equal to 4 and every layer-1 cell (16..31) equal
to 18; the copy/add sequence ends at 5 and 11 respectively. -/
theorem claim_C4 :
    c4_scaled.getData = List.replicate 16 (4 : Int) ++ List.replicate 16 18 ∧
    c4_added.getData = List.replicate 16 (5 : Int) ++ List.replicate 16 11 := by
  decide

/-- Looking a key up in an association list extended with that key at the
end succeeds. -/
theorem lookup_append_self {β : Type} (props : List (String × β)) (n : String)
    (p : β) : ((props ++ [(n, p)]).lookup n).isSome = true := by
  induction props with
  | nil => simp [List.lookup]
  | cons x xs ih =>
      rcases x with ⟨k, v⟩
      by_cases h : n = k
      · simp [List.lookup, h]
      · have hb : (n == k) = false := beq_false_of_ne h
        rw [List.cons_append, List.lookup, hb]
        exact ih

/-- C3: hasKeyword is false for every name immediately after construction;
it becomes true for a supported name after addKeyword, getKeyword or
assertKeyword; addKeyword/getKeyword on an unsupported name fail with
UnsupportedKeyword without changing the registry, so hasKeyword stays
false. -/
theorem claim_C3 (T : Type) (d : Dims) (schema : List (SupportedKeywordInfo T))
    (g : GridProperties T) (name : String) :
    (∀ n, (GridProperties.construct d schema).hasKeyword n = false) ∧
    (g.supportsKeyword name = true →
      (g.addKeyword name).2.hasKeyword name = true ∧
      (g.getKeyword name).2.hasKeyword name = true ∧
      (g.assertKeyword name).hasKeyword name = true) ∧
    (g.supportsKeyword name = false →
      (g.addKeyword name).1 = Except.error GridError.UnsupportedKeyword ∧
      (g.getKeyword name).1 = Except.error GridError.UnsupportedKeyword ∧
      (g.addKeyword name).2 = g ∧ (g.getKeyword name).2 = g) ∧
    (g.hasKeyword name = false → g.supportsKeyword name = false →
      (g.addKeyword name).2.hasKeyword name = false ∧
      (g.getKeyword name).2.hasKeyword name = false) := by
  have hget : g.supportsKeyword name = true →
      (g.getKeyword name).2.hasKeyword name = true := by
    intro hsupp
    obtain ⟨kw, hkw⟩ := Option.isSome_iff_exists.mp hsupp
    unfold GridProperties.getKeyword GridProperties.hasKeyword
    rw [hkw]
    cases hlook : g.properties.lookup name with
    | some p => simp [hlook]
    | none =>
        simp only [hlook]
        exact lookup_append_self _ _ _
  refine ⟨?_, fun hsupp => ⟨?_, hget hsupp, hget hsupp⟩, fun hsupp => ?_, ?_⟩
  · intro n
    simp [GridProperties.construct, GridProperties.hasKeyword, List.lookup]
  · obtain ⟨kw, hkw⟩ := Option.isSome_iff_exists.mp hsupp
    by_cases hhas : g.hasKeyword name = true
    · simp [GridProperties.addKeyword, hkw, hhas]
    · simp only [GridProperties.addKeyword, hkw, if_neg hhas]
      unfold GridProperties.hasKeyword
      exact lookup_append_self _ _ _
  · have hfind : g.supported.find? (fun kw => kw.keyword = name) = none := by
      cases hf : g.supported.find? (fun kw => kw.keyword = name) with
      | none => rfl
      | some kw => rw [GridProperties.supportsKeyword, hf] at hsupp; cases hsupp
    refine ⟨?_, ?_, ?_, ?_⟩ <;>
      simp [GridProperties.addKeyword, GridProperties.getKeyword, hfind]
  · intro hhas hsupp
    have hfind : g.supported.find? (fun kw => kw.keyword = name) = none := by
      cases hf : g.supported.find? (fun kw => kw.keyword = name) with
      | none => rfl
      | some kw => rw [GridProperties.supportsKeyword, hf] at hsupp; cases hsupp
    constructor <;>
      simp [GridProperties.addKeyword, GridProperties.getKeyword, hfind, hhas]

/-- Witness for C3 at the `addKeyword` test's registry (schema SATNUM on a
10×7×9 grid): fresh registry has nothing, adding SATNUM materializes it,
adding an unsupported name fails. -/
theorem claim_C3_witness :
    (GridProperties.construct ⟨10, 7, 9⟩
      [⟨"SATNUM", (0 : Int), "1"⟩]).hasKeyword "SATNUM" = false ∧
    ((GridProperties.construct ⟨10, 7, 9⟩
      [⟨"SATNUM", (0 : Int), "1"⟩]).addKeyword "SATNUM").2.hasKeyword "SATNUM" = true ∧
    ((GridProperties.construct ⟨10, 7, 9⟩
      [⟨"SATNUM", (0 : Int), "1"⟩]).addKeyword "FLUXNUM").1 =
      Except.error GridError.UnsupportedKeyword := by
  have h1 := claim_C3 Int ⟨10, 7, 9⟩ [⟨"SATNUM", (0 : Int), "1"⟩]
    (GridProperties.construct ⟨10, 7, 9⟩ [⟨"SATNUM", (0 : Int), "1"⟩]) "SATNUM"
  have h2 := claim_C3 Int ⟨10, 7, 9⟩ [⟨"SATNUM", (0 : Int), "1"⟩]
    (GridProperties.construct ⟨10, 7, 9⟩ [⟨"SATNUM", (0 : Int), "1"⟩]) "FLUXNUM"
  exact ⟨h1.1 "SATNUM", (h1.2.1 rfl).1, (h2.2.2.1 rfl).1⟩

/-- Source `Actions::add` appends when no stored action has the incoming name. -/
theorem addByName_of_not_mem (a : ActionX) (l : List ActionX)
    (h : a.name ∉ l.map ActionX.name) : addByName a l = l ++ [a] := by
  induction l with
  | nil => rfl
  | cons x xs ih =>
      simp only [List.map_cons, List.mem_cons, not_or] at h
      rw [addByName, if_neg (fun hx => h.1 hx.symm), ih h.2, List.cons_append]

/-- Names occurring after an `Actions::add` come from the incoming action or
from the prior storage. -/
theorem mem_map_addByName (a : ActionX) (l : List ActionX) (y : String)
    (h : y ∈ (addByName a l).map ActionX.name) :
    y = a.name ∨ y ∈ l.map ActionX.name := by
  induction l with
  | nil => simpa [addByName] using h
  | cons x xs ih =>
      by_cases hx : x.name = a.name
      · rw [addByName, if_pos hx] at h
        simp only [List.map_cons, List.mem_cons] at h ⊢
        tauto
      · rw [addByName, if_neg hx] at h
        simp only [List.map_cons, List.mem_cons] at h ⊢
        rcases h with h | h
        · tauto
        · rcases ih h with h | h <;> tauto

/-- Source `Actions::add` preserves name uniqueness. -/
theorem addByName_nodup (a : ActionX) (l : List ActionX)
    (h : (l.map ActionX.name).Nodup) :
    ((addByName a l).map ActionX.name).Nodup := by
  induction l with
  | nil => simp [addByName]
  | cons x xs ih =>
      rw [List.map_cons, List.nodup_cons] at h
      by_cases hx : x.name = a.name
      · rw [addByName, if_pos hx]
        rw [List.map_cons, List.nodup_cons]
        exact ⟨fun hmem => h.1 (by rwa [hx]), h.2⟩
      · rw [addByName, if_neg hx]
        rw [List.map_cons, List.nodup_cons]
        refine ⟨fun hmem => ?_, ih h.2⟩
        rcases mem_map_addByName a xs x.name hmem with heq | hmem2
        · exact hx heq
        · exact h.1 hmem2

/-- When a stored action already carries the incoming name (names unique),
`Actions::add` replaces it in place: same length and a pointwise
replace-by-name description of the result. -/
theorem addByName_of_mem (a : ActionX) (l : List ActionX)
    (hnodup : (l.map ActionX.name).Nodup)
    (h : a.name ∈ l.map ActionX.name) :
    (addByName a l).length = l.length ∧
    ∀ n : Nat, (addByName a l)[n]? =
      (l[n]?).map (fun x => if x.name = a.name then a else x) := by
  induction l with
  | nil => simp at h
  | cons x xs ih =>
      rw [List.map_cons, List.nodup_cons] at hnodup
      by_cases hx : x.name = a.name
      · rw [addByName, if_pos hx]
        refine ⟨by simp, fun n => ?_⟩
        cases n with
        | zero => simp [hx]
        | succ m =>
            simp only [List.getElem?_cons_succ]
            cases hxm : xs[m]? with
            | none => simp
            | some y =>
                have hy : y.name ≠ a.name := by
                  intro hk
                  apply hnodup.1
                  rw [hx, ← hk]
                  exact List.mem_map_of_mem ActionX.name (List.getElem?_mem hxm)
                simp [hy]
      · rw [addByName, if_neg hx]
        have hmem : a.name ∈ xs.map ActionX.name := by
          rcases List.mem_cons.mp h with heq | hm
          · exact absurd heq.symm hx
          · exact hm
        obtain ⟨hlen, hpt⟩ := ih hnodup.2 hmem
        refine ⟨by simpa using hlen, fun n => ?_⟩
        cases n with
        | zero => simp [hx]
        | succ m => simpa using hpt m

/-- After `Actions::add`, `Actions::get` of the incoming name finds the
incoming action. -/
theorem find?_addByName (a : ActionX) (l : List ActionX) :
    (addByName a l).find? (fun act => act.name = a.name) = some a := by
  induction l with
  | nil => simp [addByName]
  | cons x xs ih =>
      by_cases hx : x.name = a.name
      · rw [addByName, if_pos hx]
        simp
      · rw [addByName, if_neg hx]
        rw [List.find?_cons_of_neg _ (by simpa using hx)]
        exact ih

/-- C9: add replaces in place (size unchanged, position preserved) when a
stored action has the same name and appends otherwise; name uniqueness is
preserved and holds after any add sequence from empty; get returns the most
recently added action of a name and fails on absent names. -/
theorem claim_C9 (l : List ActionX) (a : ActionX)
    (hnodup : (l.map ActionX.name).Nodup) :
    (a.name ∈ l.map ActionX.name →
      ((Actions.mk l).add a).size = (Actions.mk l).size ∧
      ∀ n : Nat, ((Actions.mk l).add a).actions[n]? =
        (l[n]?).map (fun x => if x.name = a.name then a else x)) ∧
    (a.name ∉ l.map ActionX.name →
      ((Actions.mk l).add a).actions = l ++ [a]) ∧
    (((Actions.mk l).add a).actions.map ActionX.name).Nodup ∧
    ((Actions.mk l).add a).get a.name = some a ∧
    (∀ name, name ∉ l.map ActionX.name → (Actions.mk l).get name = none) ∧
    (∀ seq : List ActionX,
      ((seq.foldl Actions.add (Actions.mk [])).actions.map ActionX.name).Nodup) := by
  refine ⟨fun hmem => ?_, fun hmem => ?_, ?_, ?_, fun name hname => ?_, fun seq => ?_⟩
  · exact addByName_of_mem a l hnodup hmem
  · exact addByName_of_not_mem a l hmem
  · exact addByName_nodup a l hnodup
  · exact find?_addByName a l
  · refine List.find?_eq_none.mpr fun x hx => ?_
    simp only [decide_eq_true_eq]
    intro heq
    exact hname (heq ▸ List.mem_map_of_mem ActionX.name hx)
  · have hgen : ∀ (s : List ActionX) (A : Actions),
        (A.actions.map ActionX.name).Nodup →
        ((s.foldl Actions.add A).actions.map ActionX.name).Nodup := by
      intro s
      induction s with
      | nil => intro A hA; exact hA
      | cons b bs ih =>
          intro A hA
          exact ih (A.add b) (addByName_nodup b A.actions hA)
    exact hgen seq (Actions.mk []) (by simp)

/-- Witness for C9: from two stored actions A,B, re-adding a new A replaces
it in place (size 2, position 0) and get returns the replacement; adding C
appends; get on an absent name fails. -/
theorem claim_C9_witness :
    ((Actions.mk [⟨"A", fun _ => false⟩, ⟨"B", fun _ => false⟩]).add
        ⟨"A", fun _ => true⟩).size = 2 ∧
    ((Actions.mk [⟨"A", fun _ => false⟩, ⟨"B", fun _ => false⟩]).add
        ⟨"A", fun _ => true⟩).get "A" = some ⟨"A", fun _ => true⟩ ∧
    ((Actions.mk [⟨"A", fun _ => false⟩, ⟨"B", fun _ => false⟩]).add
        ⟨"C", fun _ => true⟩).actions =
      [⟨"A", fun _ => false⟩, ⟨"B", fun _ => false⟩, ⟨"C", fun _ => true⟩] ∧
    (Actions.mk [⟨"A", fun _ => false⟩, ⟨"B", fun _ => false⟩]).get "Z" = none := by
  have h1 := claim_C9 [⟨"A", fun _ => false⟩, ⟨"B", fun _ => false⟩]
    ⟨"A", fun _ => true⟩ (by simp)
  have h2 := claim_C9 [⟨"A", fun _ => false⟩, ⟨"B", fun _ => false⟩]
    ⟨"C", fun _ => true⟩ (by simp)
  exact ⟨(h1.1 (by simp)).1, h1.2.2.2.1, h2.2.1 (by simp),
    h1.2.2.2.2.1 "Z" (by simp)⟩

/-- C10: pending(t) returns exactly the stored actions whose ready(t) holds,
in storage order, and ready(t) is true iff pending(t) is non-empty. -/
theorem claim_C10 (A : Actions) (t : Int) :
    A.pending t = A.actions.filter (fun a => a.ready t) ∧
    (A.ready t = true ↔ A.pending t ≠ []) := by
  obtain ⟨l⟩ := A
  simp only [Actions.pending, Actions.ready]
  induction l with
  | nil => simp [Actions.pendingList, Actions.readyList]
  | cons x xs ih =>
      by_cases hx : x.ready t = true
      · simp only [Actions.pendingList, Actions.readyList, hx, if_true,
          List.filter_cons, ne_eq]
        simp [ih.1]
      · simp only [Bool.not_eq_true] at hx
        simpa [Actions.pendingList, Actions.readyList, hx, List.filter_cons]
          using ih

theorem mem_rangeIncl (a b x : Nat) : x ∈ rangeIncl a b ↔ a ≤ x ∧ x ≤ b := by
  simp only [rangeIncl, List.mem_map, List.mem_range]
  constructor
  · rintro ⟨t, ht, rfl⟩
    omega
  · rintro ⟨h1, h2⟩
    exact ⟨x - a, by omega, by omega⟩

theorem filterMap_flatMap (l : List α) (f : α → List β) (g : β → Option γ) :
    (l.flatMap f).filterMap g = l.flatMap (fun x => (f x).filterMap g) := by
  induction l with
  | nil => rfl
  | cons x xs ih => simp [List.flatMap_cons, List.filterMap_append, ih]

/-- C7: generateConnections emits connections exactly for the active cells
of the record's box that either allow internal cells or have no active
in-reservoir neighbour across the connection face, in row-major order
(k outer, j middle, i inner); inactive cells never yield a connection. -/
theorem claim_C7 (grid : EclipseGrid) (record : AquconRecord)
    (hpos : 1 ≤ record.i1 ∧ 1 ≤ record.i2 ∧ 1 ≤ record.j1 ∧ 1 ≤ record.j2 ∧
      1 ≤ record.k1 ∧ 1 ≤ record.k2) :
    (NumAquiferCon.generateConnections grid record =
      (rowMajorBoxCells (record.i1 - 1) (record.i2 - 1) (record.j1 - 1)
          (record.j2 - 1) (record.k1 - 1) (record.k2 - 1)).filterMap
        (fun c =>
          if grid.cellActive c.1 c.2.1 c.2.2 &&
              (record.allow_internal_cells ||
                ! grid.neighborCellInsideReservoirAndActive c.1 c.2.1 c.2.2
                  record.connect_face) then
            some (NumAquiferCon.make c.1 c.2.1 c.2.2
              (grid.getGlobalIndex c.1 c.2.1 c.2.2)
              record.allow_internal_cells record)
          else
            none)) ∧
    (∀ con ∈ NumAquiferCon.generateConnections grid record,
      grid.cellActive con.I con.J con.K = true ∧
      (record.allow_internal_cells = true ∨
        grid.neighborCellInsideReservoirAndActive con.I con.J con.K
          record.connect_face = false) ∧
      record.i1 - 1 ≤ con.I ∧ con.I ≤ record.i2 - 1 ∧
      record.j1 - 1 ≤ con.J ∧ con.J ≤ record.j2 - 1 ∧
      record.k1 - 1 ≤ con.K ∧ con.K ≤ record.k2 - 1 ∧
      con = NumAquiferCon.make con.I con.J con.K
        (grid.getGlobalIndex con.I con.J con.K)
        record.allow_internal_cells record) ∧
    (∀ i j k : Nat,
      record.i1 - 1 ≤ i → i ≤ record.i2 - 1 →
      record.j1 - 1 ≤ j → j ≤ record.j2 - 1 →
      record.k1 - 1 ≤ k → k ≤ record.k2 - 1 →
      grid.cellActive i j k = true →
      (record.allow_internal_cells = true ∨
        grid.neighborCellInsideReservoirAndActive i j k
          record.connect_face = false) →
      NumAquiferCon.make i j k (grid.getGlobalIndex i j k)
        record.allow_internal_cells record ∈
        NumAquiferCon.generateConnections grid record) := by
  have hinner : ∀ i j k : Nat,
      (if ! grid.cellActive i j k then (none : Option NumAquiferCon)
       else if record.allow_internal_cells ||
           ! grid.neighborCellInsideReservoirAndActive i j k
             record.connect_face then
         some (NumAquiferCon.make i j k (grid.getGlobalIndex i j k)
           record.allow_internal_cells record)
       else none) =
      (if grid.cellActive i j k &&
          (record.allow_internal_cells ||
            ! grid.neighborCellInsideReservoirAndActive i j k
              record.connect_face) then
        some (NumAquiferCon.make i j k (grid.getGlobalIndex i j k)
          record.allow_internal_cells record)
      else none) := by
    intro i j k
    cases hact : grid.cellActive i j k <;>
      cases hcond : record.allow_internal_cells ||
        ! grid.neighborCellInsideReservoirAndActive i j k
          record.connect_face <;> simp [hact, hcond]
  have hshape : NumAquiferCon.generateConnections grid record =
      (rowMajorBoxCells (record.i1 - 1) (record.i2 - 1) (record.j1 - 1)
          (record.j2 - 1) (record.k1 - 1) (record.k2 - 1)).filterMap
        (fun c =>
          if grid.cellActive c.1 c.2.1 c.2.2 &&
              (record.allow_internal_cells ||
                ! grid.neighborCellInsideReservoirAndActive c.1 c.2.1 c.2.2
                  record.connect_face) then
            some (NumAquiferCon.make c.1 c.2.1 c.2.2
              (grid.getGlobalIndex c.1 c.2.1 c.2.2)
              record.allow_internal_cells record)
          else
            none) := by
    simp only [NumAquiferCon.generateConnections, rowMajorBoxCells,
      filterMap_flatMap, List.filterMap_map, Function.comp]
    congr 1
    funext k
    congr 1
    funext j
    congr 1
    funext i
    exact hinner i j k
  refine ⟨hshape, fun con hcon => ?_,
    fun i j k hi1 hi2 hj1 hj2 hk1 hk2 hact hcond => ?_⟩
  · rw [hshape] at hcon
    simp only [List.mem_filterMap, rowMajorBoxCells, List.mem_flatMap,
      List.mem_map] at hcon
    obtain ⟨c, ⟨k, hk, j, hj, i, hi, rfl⟩, hc⟩ := hcon
    cases hcb : (grid.cellActive i j k &&
        (record.allow_internal_cells ||
          ! grid.neighborCellInsideReservoirAndActive i j k
            record.connect_face)) with
    | false => rw [hcb] at hc; simp at hc
    | true =>
        rw [hcb] at hc
        simp only [if_true, Option.some.injEq] at hc
        subst hc
        rw [mem_rangeIncl] at hi hj hk
        have hcb2 := Bool.and_eq_true _ _ |>.mp hcb
        have hcond2 := Bool.or_eq_true _ _ |>.mp hcb2.2
        refine ⟨by simpa [NumAquiferCon.make] using hcb2.1, ?_,
          by simpa [NumAquiferCon.make] using hi.1,
          by simpa [NumAquiferCon.make] using hi.2,
          by simpa [NumAquiferCon.make] using hj.1,
          by simpa [NumAquiferCon.make] using hj.2,
          by simpa [NumAquiferCon.make] using hk.1,
          by simpa [NumAquiferCon.make] using hk.2, by rfl⟩
        rcases hcond2 with h | h
        · exact Or.inl (by simpa [NumAquiferCon.make] using h)
        · right
          simpa [NumAquiferCon.make, Bool.not_eq_true'] using h
  · rw [hshape]
    simp only [List.mem_filterMap, rowMajorBoxCells, List.mem_flatMap,
      List.mem_map]
    have hcb : (grid.cellActive i j k &&
        (record.allow_internal_cells ||
          ! grid.neighborCellInsideReservoirAndActive i j k
            record.connect_face)) = true := by
      rcases hcond with h | h <;> simp [hact, h]
    refine ⟨(i, j, k), ⟨k, (mem_rangeIncl _ _ _).mpr ⟨hk1, hk2⟩,
      j, (mem_rangeIncl _ _ _).mpr ⟨hj1, hj2⟩,
      i, (mem_rangeIncl _ _ _).mpr ⟨hi1, hi2⟩, rfl⟩, ?_⟩
    rw [hcb]
    simp

/-- A 2×2×1 grid, all cells active, no neighbour inside the reservoir. -/
def c7_grid : EclipseGrid :=
  { nx := 2, ny := 2, nz := 1
    cellActive := fun i j k => decide (i < 2 ∧ j < 2 ∧ k < 1)
    neighborCellInsideReservoirAndActive := fun _ _ _ _ => false }

/-- An AQUCON record for aquifer 1 covering the single cell (1,1,1)
(1-based). -/
def c7_record : AquconRecord :=
  { id := 1, i1 := 1, i2 := 1, j1 := 1, j2 := 1, k1 := 1, k2 := 1
    connect_face := FaceDir.XMinus, trans_mult := 1, trans_option := 0
    allow_internal_cells := false, ve_frac_relperm := 1, ve_frac_cappress := 0 }

/-- Witness for C7: on the 2×2×1 grid the active boundary cell (0,0,0)
yields its connection. -/
theorem claim_C7_witness :
    NumAquiferCon.make 0 0 0 (c7_grid.getGlobalIndex 0 0 0)
      c7_record.allow_internal_cells c7_record ∈
      NumAquiferCon.generateConnections c7_grid c7_record := by
  have h := claim_C7 c7_grid c7_record
    ⟨by decide, by decide, by decide, by decide, by decide, by decide⟩
  exact h.2.2 0 0 0 (by decide) (by decide) (by decide) (by decide)
    (by decide) (by decide) (by decide) (Or.inr rfl)

/-- Association-list lookup succeeds exactly on stored keys. -/
theorem lookup_isSome_iff {β : Type} (k : Nat) (l : List (Nat × β)) :
    ((l.lookup k).isSome = true) ↔ k ∈ l.map Prod.fst := by
  induction l with
  | nil => simp [List.lookup]
  | cons x xs ih =>
      rcases x with ⟨k2, v⟩
      by_cases h : k = k2
      · simp [List.lookup, h]
      · have hb : (k == k2) = false := beq_false_of_ne h
        simp [List.lookup, hb, ih, h]

/-- The key-uniqueness invariant of `connections_`: aquifer ids are unique
and, per aquifer, global indices are unique. -/
def ConnInv (m : ConnMap) : Prop :=
  (m.map Prod.fst).Nodup ∧ ∀ e ∈ m, ((e.2.map Prod.fst).Nodup)

/-- Keys after an insertion come from the old map or the inserted id. -/
theorem insertCon_keys (con : NumAquiferCon) :
    ∀ (m r : ConnMap), insertCon m con = some r →
      ∀ k, k ∈ r.map Prod.fst → k ∈ m.map Prod.fst ∨ k = con.aquifer_id := by
  intro m
  induction m with
  | nil =>
      intro r h k hk
      simp only [insertCon, Option.some.injEq] at h
      subst h
      simp only [List.map_cons, List.map_nil, List.mem_cons,
        List.not_mem_nil, or_false] at hk
      exact Or.inr hk
  | cons x xs ih =>
      rcases x with ⟨id, cons⟩
      intro r h k hk
      by_cases hid : id = con.aquifer_id
      · rw [insertCon, if_pos hid] at h
        by_cases hl : (cons.lookup con.global_index).isSome = true
        · rw [if_pos hl] at h
          cases h
        · rw [if_neg hl] at h
          have h2 : ((id, cons ++ [(con.global_index, con)]) :: xs) = r :=
            Option.some.injEq _ _ |>.mp h
          subst h2
          left
          simpa using hk
      · rw [insertCon, if_neg hid] at h
        cases hrec : insertCon xs con with
        | none => rw [hrec] at h; cases h
        | some r2 =>
            rw [hrec] at h
            have h2 : ((id, cons) :: r2) = r := Option.some.injEq _ _ |>.mp h
            subst h2
            simp only [List.map_cons, List.mem_cons] at hk ⊢
            rcases hk with hk | hk
            · exact Or.inl (Or.inl hk)
            · rcases ih r2 hrec k hk with h3 | h3
              · exact Or.inl (Or.inr h3)
              · exact Or.inr h3

/-- A successful insertion preserves the key-uniqueness invariant. -/
theorem insertCon_inv (con : NumAquiferCon) :
    ∀ (m r : ConnMap), insertCon m con = some r → ConnInv m → ConnInv r := by
  intro m
  induction m with
  | nil =>
      intro r h _
      simp only [insertCon, Option.some.injEq] at h
      subst h
      refine ⟨by simp, fun e he => ?_⟩
      simp only [List.mem_cons, List.not_mem_nil, or_false] at he
      subst he
      simp
  | cons x xs ih =>
      rcases x with ⟨id, cons⟩
      intro r h hm
      obtain ⟨houter, hinner⟩ := hm
      rw [List.map_cons, List.nodup_cons] at houter
      by_cases hid : id = con.aquifer_id
      · rw [insertCon, if_pos hid] at h
        by_cases hl : (cons.lookup con.global_index).isSome = true
        · rw [if_pos hl] at h
          cases h
        · rw [if_neg hl] at h
          have h2 : ((id, cons ++ [(con.global_index, con)]) :: xs) = r :=
            Option.some.injEq _ _ |>.mp h
          subst h2
          refine ⟨by simpa using houter, fun e he => ?_⟩
          rcases List.mem_cons.mp he with he | he
          · subst he
            have hcons : ((cons.map Prod.fst).Nodup) :=
              hinner (id, cons) (List.mem_cons_self _ _)
            have
              hgnot : con.global_index ∉ cons.map Prod.fst :=
              fun hmem => hl ((lookup_isSome_iff _ _).mpr hmem)
            simp only [List.map_append, List.map_cons, List.map_nil]
            rw [List.nodup_append]
            refine ⟨hcons, by simp, fun a ha hb => ?_⟩
            simp only [List.mem_singleton] at hb
            exact hgnot (hb ▸ ha)
          · exact hinner e (List.mem_cons_of_mem _ he)
      · rw [insertCon, if_neg hid] at h
        cases hrec : insertCon xs con with
        | none => rw [hrec] at h; cases h
        | some r2 =>
            rw [hrec] at h
            have h2 : ((id, cons) :: r2) = r := Option.some.injEq _ _ |>.mp h
            subst h2
            have hinv2 : ConnInv r2 :=
              ih r2 hrec ⟨houter.2, fun e he => hinner e (List.mem_cons_of_mem _ he)⟩
            refine ⟨?_, fun e he => ?_⟩
            · rw [List.map_cons, List.nodup_cons]
              refine ⟨fun hmem => ?_, hinv2.1⟩
              rcases insertCon_keys con xs r2 hrec id hmem with h3 | h3
              · exact houter.1 h3
              · exact hid h3
            · rcases List.mem_cons.mp he with he | he
              · subst he
                exact hinner (id, cons) (List.mem_cons_self _ _)
              · exact hinv2.2 e he

/-- An `Except`-valued left fold preserves any invariant its step
preserves. -/
theorem foldlM_except_inv {α β ε : Type} (step : β → α → Except ε β)
    (P : β → Prop)
    (hstep : ∀ b a b2, step b a = Except.ok b2 → P b → P b2) :
    ∀ (l : List α) (b b2 : β), List.foldlM step b l = Except.ok b2 → P b → P b2 := by
  intro l
  induction l with
  | nil =>
      intro b b2 h hb
      have h2 : Except.ok b = Except.ok b2 := h
      cases h2
      exact hb
  | cons a as ih =>
      intro b b2 h hb
      rw [List.foldlM_cons] at h
      cases hs : step b a with
      | error e =>
          rw [hs] at h
          have h2 : (Except.error e : Except ε β) = Except.ok b2 := h
          cases h2
      | ok b1 =>
          rw [hs] at h
          have h2 : List.foldlM step b1 as = Except.ok b2 := h
          exact ih b1 b2 h2 (hstep b a b1 hs hb)

/-- A successful `NumericalAquiferConnections` construction satisfies the
key-uniqueness invariant. -/
theorem build_inv (grid : EclipseGrid)
    (kws : List (KeywordLocation × List AquconRecord)) (m : ConnMap)
    (h : NumericalAquiferConnections.build grid kws = Except.ok m) :
    ConnInv m := by
  unfold NumericalAquiferConnections.build at h
  refine foldlM_except_inv _ ConnInv ?_ kws ([] : ConnMap) m h ⟨by simp, by simp⟩
  intro b kw b2 hstep hb
  refine foldlM_except_inv _ ConnInv ?_ kw.2 b b2 hstep hb
  intro b3 record b4 hstep2 hb3
  refine foldlM_except_inv _ ConnInv ?_
    (NumAquiferCon.generateConnections grid record) b3 b4 hstep2 hb3
  intro b5 con b6 hstep3 hb5
  cases hic : insertCon b5 con with
  | none =>
      rw [hic] at hstep3
      have h4 : (Except.error (⟨dupMessage con, kw.1⟩ : OpmInputError) :
        Except OpmInputError ConnMap) = Except.ok b6 := hstep3
      cases h4
  | some m2 =>
      rw [hic] at hstep3
      have h4 : Except.ok m2 = Except.ok b6 := hstep3
      injection h4 with h5
      subst h5
      exact insertCon_inv con b5 _ hic hb5

/-- A 2×2×1 all-active grid with no in-reservoir neighbours, for the C8
scenarios. -/
def c8_grid : EclipseGrid :=
  { nx := 2, ny := 2, nz := 1
    cellActive := fun i j k => decide (i < 2 ∧ j < 2 ∧ k < 1)
    neighborCellInsideReservoirAndActive := fun _ _ _ _ => false }

/-- Source location of the AQUCON keyword in the C8 scenarios. -/
def c8_loc : KeywordLocation := ⟨"TEST.DATA", 12⟩

/-- AQUCON record: aquifer 1, single cell (1,1,1). -/
def c8_rec1 : AquconRecord :=
  { id := 1, i1 := 1, i2 := 1, j1 := 1, j2 := 1, k1 := 1, k2 := 1
    connect_face := FaceDir.XMinus, trans_mult := 1, trans_option := 0
    allow_internal_cells := false, ve_frac_relperm := 1, ve_frac_cappress := 0 }

/-- AQUCON record: aquifer 2, the same single cell (1,1,1). -/
def c8_rec2 : AquconRecord :=
  { id := 2, i1 := 1, i2 := 1, j1 := 1, j2 := 1, k1 := 1, k2 := 1
    connect_face := FaceDir.XMinus, trans_mult := 1, trans_option := 0
    allow_internal_cells := false, ve_frac_relperm := 1, ve_frac_cappress := 0 }

/-- The connection generated from `c8_rec1`. -/
def c8_con1 : NumAquiferCon := NumAquiferCon.make 0 0 0 0 false c8_rec1

/-- The connection generated from `c8_rec2`. -/
def c8_con2 : NumAquiferCon := NumAquiferCon.make 0 0 0 0 false c8_rec2

/-- C8: declaring the same global cell twice for one aquifer id fails with
an input error carrying the keyword's location; the same cell under two
aquifer ids is accepted; and on success each aquifer id maps each global
index to at most one connection. -/
theorem claim_C8 :
    (∀ (grid : EclipseGrid) (kws : List (KeywordLocation × List AquconRecord))
      (m : ConnMap),
      NumericalAquiferConnections.build grid kws = Except.ok m →
      ∀ e ∈ m, ((e.2.map Prod.fst).Nodup)) ∧
    NumericalAquiferConnections.build c8_grid [(c8_loc, [c8_rec1, c8_rec1])] =
      Except.error ⟨dupMessage c8_con1, c8_loc⟩ ∧
    NumericalAquiferConnections.build c8_grid [(c8_loc, [c8_rec1, c8_rec2])] =
      Except.ok [(1, [(0, c8_con1)]), (2, [(0, c8_con2)])] := by
  refine ⟨fun grid kws m h => (build_inv grid kws m h).2, ?_, ?_⟩ <;> rfl

/-- Witness for C8's invariant part at the accepted two-aquifer scenario. -/
theorem claim_C8_witness :
    (([((0 : Nat), c8_con1)].map Prod.fst).Nodup) ∧
    (([((0 : Nat), c8_con2)].map Prod.fst).Nodup) := by
  have h := claim_C8.1 c8_grid [(c8_loc, [c8_rec1, c8_rec2])]
    [(1, [(0, c8_con1)]), (2, [(0, c8_con2)])] rfl
  exact ⟨h (1, [(0, c8_con1)]) (by simp), h (2, [(0, c8_con2)]) (by simp)⟩

end OpmCommon
